import Mathlib

set_option maxHeartbeats 1000000

/-!
Shallow embedding of `src/Realm/ObjectStore/impl/realm_coordinator.cpp`
(transaction-log validator and observer, the coordinator's `get_realm`
configuration reconciliation and caching, and the async-query pipeline),
together with theorems checking the specification's claims about it.

Conventions used throughout:
* `size_t` indices become `ℕ`; `SharedGroup::VersionID` becomes `ℕ × ℕ`
  ordered lexicographically, with `(0, 0)` the default ("unversioned") value.
* Handler parameters that the C++ code ignores (string names, data types,
  payload values, row counts that are unused) are elided from the event types.
* `REALM_ASSERT` failure and a handler returning `false` both abort
  transaction-log parsing; runners model this with `Option` (`none` = abort).
* Collaborators that live outside the given sources (`IndexSet`,
  `AsyncQuery`, `Realm`, the storage engine) are modelled from the spec, as
  flagged in the corresponding doc comments.
-/

/-- Modelled from the spec: the repository's `IndexSet` (`index_set.hpp/.cpp`
is not among the given sources).  Spec section 4.A describes it as an ordered
sparse set of non-negative integers and leaves the representation free, so we
model it as a `Finset ℕ`. -/
abbrev IndexSet := Finset ℕ

namespace IndexSet

/-- Modelled from the spec: `add(i)` inserts `i`. -/
def add (s : IndexSet) (i : ℕ) : IndexSet := insert i s

/-- Modelled from the spec: `shift_for_insert_at(i)` shifts every element
`≥ i` up by 1 without adding `i`. -/
def shift_for_insert_at (s : IndexSet) (i : ℕ) : IndexSet :=
  s.image (fun x => if i ≤ x then x + 1 else x)

/-- Modelled from the spec: `insert_at(i)` shifts every element `≥ i` up by 1,
then adds `i`. -/
def insert_at (s : IndexSet) (i : ℕ) : IndexSet :=
  insert i (s.shift_for_insert_at i)

/-- Modelled from the spec: `erase_at(i)` removes `i` if present, then shifts
every element `> i` down by 1. -/
def erase_at (s : IndexSet) (i : ℕ) : IndexSet :=
  (s.erase i).image (fun x => if i < x then x - 1 else x)

/-- Modelled from the spec: `unshift(i)` is `i` minus the count of stored
elements `< i`. -/
def unshift (s : IndexSet) (i : ℕ) : ℕ :=
  i - (s.filter (fun x => x < i)).card

/-- Modelled from the spec: `add_shifted(j)` adds `j` without shifting. -/
def add_shifted (s : IndexSet) (j : ℕ) : IndexSet := insert j s

end IndexSet

/-! ## TransactLogValidator -/

/-- State of `TransactLogValidator`: the currently selected table index and
the indices of tables created during the transaction being processed. -/
structure VState where
  current_table : ℕ
  new_tables : List ℕ
deriving DecidableEq, Repr

/-- The transaction-log events relevant to `TransactLogValidator`.  Parameters
the C++ handlers ignore are elided. -/
inductive VEvent where
  | add_search_index
  | remove_search_index
  | insert_group_level_table (table_ndx : ℕ)
  | insert_column
  | insert_link_column
  | add_primary_key
  | set_link_type
  | erase_group_level_table
  | rename_group_level_table
  | erase_column
  | erase_link_column
  | rename_column
  | remove_primary_key
  | move_column
  | move_group_level_table
  | select_descriptor (levels : ℕ)
  | select_table (group_level_ndx : ℕ)
  | select_link_list
  | data_mutation
deriving DecidableEq, Repr

/-- `TransactLogValidator::insert_group_level_table`: shift any previously
added tables at or after the new index, then record the new index. -/
def VState.insert_group_level_table (s : VState) (table_ndx : ℕ) : VState :=
  { current_table := s.current_table,
    new_tables := (s.new_tables.map (fun t => if t ≥ table_ndx then t + 1 else t)) ++ [table_ndx] }

/-- `TransactLogValidator::schema_error_unless_new_table`: throw the
schema-mismatch error unless the currently selected table was created during
this transaction.  `.error ()` models the thrown `std::runtime_error`. -/
def VState.schema_error_unless_new_table (s : VState) : Except Unit (VState × Bool) :=
  if s.current_table ∈ s.new_tables then .ok (s, true) else .error ()

/-- One step of `TransactLogValidator`: `.error ()` is the thrown
schema-mismatch error, `.ok (s, b)` is the new state together with the
handler's boolean result (`false` aborts parsing). -/
def valStep (s : VState) : VEvent → Except Unit (VState × Bool)
  | .add_search_index => .ok (s, true)
  | .remove_search_index => .ok (s, true)
  | .insert_group_level_table t => .ok (s.insert_group_level_table t, true)
  | .insert_column => s.schema_error_unless_new_table
  | .insert_link_column => s.schema_error_unless_new_table
  | .add_primary_key => s.schema_error_unless_new_table
  | .set_link_type => s.schema_error_unless_new_table
  | .erase_group_level_table => .error ()
  | .rename_group_level_table => .error ()
  | .erase_column => .error ()
  | .erase_link_column => .error ()
  | .rename_column => .error ()
  | .remove_primary_key => .error ()
  | .move_column => .error ()
  | .move_group_level_table => .error ()
  | .select_descriptor levels => .ok (s, levels == 0)
  | .select_table n => .ok ({ s with current_table := n }, true)
  | .select_link_list => .ok (s, true)
  | .data_mutation => .ok (s, true)

/-- Run the validator over a list of events; `none` if any event threw the
schema-mismatch error or returned `false` (aborting parsing). -/
def valRun (s : VState) : List VEvent → Option VState
  | [] => some s
  | e :: es =>
    match valStep s e with
    | .ok (s', true) => valRun s' es
    | _ => none

/-! ## TransactLogObserver: per-table change info -/

/-- Per-table `ChangeInfo`: count of deletions, the swap-remove `moves` map
(modelling `std::map<size_t, size_t>` as an association list with unique keys
maintained by `mapAssign`), and the `changed` row set (`std::set<size_t>`). -/
structure ChangeInfo where
  deletions : ℕ
  moves : List (ℕ × ℕ)
  changed : Finset ℕ
deriving DecidableEq

/-- A freshly value-initialized `ChangeInfo`. -/
def ChangeInfo.init : ChangeInfo := ⟨0, [], ∅⟩

/-- `std::map::operator[]` followed by assignment: replace the binding of `k`
if present, otherwise add one. -/
def mapAssign (m : List (ℕ × ℕ)) (k v : ℕ) : List (ℕ × ℕ) :=
  match m with
  | [] => [(k, v)]
  | (k', v') :: rest => if k' = k then (k, v) :: rest else (k', v') :: mapAssign rest k v

/-- `TransactLogObserver::erase_rows` body acting on the selected table's
`ChangeInfo` (the table is required to be `unordered`, i.e. swap-remove):
resolve the prior last row through an existing `moves` entry, record
`moves[row_ndx] := last_row_ndx`, and bump `deletions`. -/
def ChangeInfo.erase_rows (ci : ChangeInfo) (row_ndx prior_num_rows : ℕ) : ChangeInfo :=
  let last0 := prior_num_rows - 1
  let last_row_ndx :=
    match ci.moves.lookup last0 with
    | some orig => orig
    | none => last0
  { ci with moves := mapAssign ci.moves row_ndx last_row_ndx,
            deletions := ci.deletions + 1 }

/-- `TransactLogObserver::mark_dirty` body acting on the selected table's
`ChangeInfo`: remap the row through `moves` if an entry exists, then record it
in `changed`. -/
def ChangeInfo.mark_dirty (ci : ChangeInfo) (row : ℕ) : ChangeInfo :=
  let r :=
    match ci.moves.lookup row with
    | some orig => orig
    | none => row
  { ci with changed := insert r ci.changed }

/-! ## TransactLogObserver: per-link-list change info -/

/-- `TransactLogObserver::LinkListInfo`: identity of the observed link-list
plus its four change sets, move list and clear flag. -/
structure LinkListInfo where
  table_ndx : ℕ
  row_ndx : ℕ
  col_ndx : ℕ
  inserts : IndexSet
  deletes : IndexSet
  changes : IndexSet
  moves : List (ℕ × ℕ)
  did_clear : Bool
deriving DecidableEq

/-- The link-list mutation events (`link_list_*` in the transaction log). -/
inductive LLEvent where
  | set (index : ℕ)
  | insert (index : ℕ)
  | erase (index : ℕ)
  | nullify (index : ℕ)
  | swap (index1 index2 : ℕ)
  | clear
  | move (from_ndx to_ndx : ℕ)
deriving DecidableEq, Repr

/-- `TransactLogObserver::link_list_set` on the active link-list. -/
def LinkListInfo.set (l : LinkListInfo) (index : ℕ) : LinkListInfo :=
  { l with changes := l.changes.add index }

/-- `TransactLogObserver::link_list_insert` on the active link-list. -/
def LinkListInfo.insert (l : LinkListInfo) (index : ℕ) : LinkListInfo :=
  { l with changes := l.changes.shift_for_insert_at index,
           inserts := l.inserts.insert_at index,
           moves := l.moves.map (fun m => if m.2 ≥ index then (m.1, m.2 + 1) else m) }

/-- `TransactLogObserver::link_list_erase` on the active link-list.  Note that
`inserts.unshift` runs after `inserts.erase_at`, as in the source, and that
the source comments this handler is "probably wrong for mixed insert/delete". -/
def LinkListInfo.erase (l : LinkListInfo) (index : ℕ) : LinkListInfo :=
  let changes := l.changes.erase_at index
  let inserts := l.inserts.erase_at index
  let deletes := l.deletes.add_shifted (inserts.unshift index)
  let moves := (l.moves.filter (fun m => m.2 ≠ index)).map
    (fun m => if m.2 > index then (m.1, m.2 - 1) else m)
  { l with changes := changes, inserts := inserts, deletes := deletes, moves := moves }

/-- `TransactLogObserver::link_list_clear` on the active link-list. -/
def LinkListInfo.clear_all (l : LinkListInfo) : LinkListInfo :=
  { l with did_clear := true, changes := ∅, inserts := ∅, deletes := ∅, moves := [] }

/-- `TransactLogObserver::link_list_move` on the active link-list (the
source's oddly named local `sadhkljh` is the `from < to` test made before
`from` is unshifted). -/
def LinkListInfo.move (l : LinkListInfo) (from_ndx to_ndx : ℕ) : LinkListInfo :=
  let fwd := from_ndx < to_ndx
  let f1 := l.inserts.unshift from_ndx
  let f := l.deletes.unshift f1
  let moves := l.moves ++ [(f, to_ndx)]
  if fwd then
    { l with changes := (l.changes.erase_at f).shift_for_insert_at f,
             inserts := (l.inserts.erase_at f).shift_for_insert_at f,
             deletes := l.deletes.add f,
             moves := moves }
  else
    { l with changes := (l.changes.shift_for_insert_at f).erase_at f,
             inserts := (l.inserts.shift_for_insert_at f).erase_at f,
             deletes := l.deletes.add f,
             moves := moves }

/-- Dispatch one link-list event on the active link-list's state
(`link_list_nullify` forwards to `link_list_erase`, `link_list_swap` is two
`link_list_set`s). -/
def llApply (l : LinkListInfo) : LLEvent → LinkListInfo
  | .set i => l.set i
  | .insert i => l.insert i
  | .erase i => l.erase i
  | .nullify i => l.erase i
  | .swap a b => (l.set a).set b
  | .clear => l.clear_all
  | .move f t => l.move f t

/-- Process a sequence of link-list events on one active link-list. -/
def llRun (l : LinkListInfo) (es : List LLEvent) : LinkListInfo := es.foldl llApply l

/-! ## TransactLogObserver: whole-observer state machine -/

/-- State of `TransactLogObserver`: the inherited selected-table cursor,
`m_changes`, the observed link-views and the index of the active one. -/
structure ObsState where
  current_table : ℕ
  m_changes : List ChangeInfo
  m_observered_linkviews : List LinkListInfo
  active : Option ℕ
deriving DecidableEq

/-- `TransactLogObserver::get_change`'s resizing step: grow `m_changes` to
`max (2 * size) (i + 1)` entries when index `i` is out of range. -/
def growChanges (l : List ChangeInfo) (i : ℕ) : List ChangeInfo :=
  if l.length ≤ i then
    l ++ List.replicate (max (2 * l.length) (i + 1) - l.length) ChangeInfo.init
  else l

/-- Read-modify-write of `m_changes[i]` through `get_change`. -/
def updateChange (l : List ChangeInfo) (i : ℕ) (f : ChangeInfo → ChangeInfo) :
    List ChangeInfo :=
  let l' := growChanges l i
  l'.set i (f (l'.getD i ChangeInfo.init))

/-- `TransactLogObserver::mark_dirty` at the whole-observer level. -/
def ObsState.mark_dirty (s : ObsState) (row : ℕ) : ObsState :=
  { s with m_changes :=
      updateChange s.m_changes s.current_table (fun ci => ci.mark_dirty row) }

/-- `TransactLogObserver::select_link_list`'s scan for the matching observed
link-view. -/
def findActive (views : List LinkListInfo) (table row col : ℕ) : Option ℕ :=
  views.findIdx? (fun o => o.table_ndx == table && o.row_ndx == row && o.col_ndx == col)

/-- Apply a link-list event to the active link-view, if any. -/
def ObsState.applyActive (s : ObsState) (e : LLEvent) : ObsState :=
  match s.active with
  | none => s
  | some i =>
    match s.m_observered_linkviews[i]? with
    | none => s
    | some l => { s with m_observered_linkviews := s.m_observered_linkviews.set i (llApply l e) }

/-- The transaction-log events relevant to `TransactLogObserver` (its own
overrides; parameters the handlers ignore are elided).  Row value setters
other than `set_int` and `set_string` run the identical `mark_dirty` body. -/
inductive OEvent where
  | insert_group_level_table (table_ndx : ℕ)
  | select_table (ndx : ℕ)
  | insert_empty_rows
  | erase_rows (row_ndx prior_num_rows : ℕ) (unordered : Bool)
  | clear_table
  | select_link_list (col row : ℕ)
  | link_list (e : LLEvent)
  | set_int (col row : ℕ)
  | set_string (col row : ℕ)
deriving DecidableEq, Repr

/-- `TransactLogObserver::insert_group_level_table`: the observer's override
unconditionally returns `false`. -/
def ObsState.insert_group_level_table (s : ObsState) (_table_ndx : ℕ) : ObsState × Bool :=
  (s, false)

/-- One step of `TransactLogObserver`.  `none` means transaction-log parsing
aborts: a handler returned `false`, or `REALM_ASSERT(unordered)` failed. -/
def obsStep (s : ObsState) : OEvent → Option ObsState
  | .insert_group_level_table t =>
    let (s', b) := s.insert_group_level_table t
    if b then some s' else none
  | .select_table n => some { s with current_table := n }
  | .insert_empty_rows => some s
  | .erase_rows row prior unordered =>
    if unordered then
      some { s with m_changes :=
        updateChange s.m_changes s.current_table (fun ci => ci.erase_rows row prior) }
    else none
  | .clear_table => some s
  | .select_link_list col row =>
    some { s with active := findActive s.m_observered_linkviews s.current_table row col }
  | .link_list e => some (s.applyActive e)
  | .set_int _ row => some (s.mark_dirty row)
  | .set_string _ row => some (s.mark_dirty row)

/-- Run the observer over a list of events; `none` once parsing aborts. -/
def obsRun (s : ObsState) : List OEvent → Option ObsState
  | [] => some s
  | e :: es =>
    match obsStep s e with
    | none => none
    | some s' => obsRun s' es

/-- A fresh `TransactLogObserver` with no observed link-views. -/
def ObsState.init : ObsState := ⟨0, [], [], none⟩

/-! ## RealmCoordinator: configuration reconciliation and the handle cache -/

/-- `ObjectStore::NotVersioned` (the unversioned schema-version sentinel,
`uint64_t` max). -/
def NotVersioned : ℕ := 18446744073709551615

/-- Modelled from the spec: the configuration fields of `Realm::Config` that
`RealmCoordinator::get_realm` reconciles (`shared_realm.hpp` is not among the
given sources; spec sections 3 and 4.D list read-only flag, in-memory flag,
encryption key, schema version and the cache flag). -/
structure RealmConfig where
  read_only : Bool
  in_memory : Bool
  encryption_key : List ℕ
  schema_version : ℕ
  cache : Bool
deriving DecidableEq, Repr

/-- Modelled from the spec: a default-constructed `Realm::Config` (not
read-only, not in-memory, no key, unversioned schema, caching on), used as
the coordinator's `m_config` before any capture. -/
def RealmConfig.initial : RealmConfig := ⟨false, false, [], NotVersioned, true⟩

/-- One entry of `m_cached_realms`: the handle's identity, whether it belongs
to the calling thread, and whether its weak reference still upgrades.  Thread
affinity and weak-reference expiry are external to the coordinator and are
modelled as attributes of the entry. -/
structure CachedRealm where
  rid : ℕ
  current_thread : Bool
  alive : Bool
deriving DecidableEq, Repr

/-- The relevant per-coordinator state for `get_realm`/`unregister_realm`:
the captured configuration, whether the external-commit notifier has been
constructed, and the cached-handle list. -/
structure CoordState where
  m_config : RealmConfig
  has_notifier : Bool
  m_cached_realms : List CachedRealm
deriving DecidableEq, Repr

/-- A coordinator fresh out of `get_coordinator`. -/
def CoordState.initial : CoordState := ⟨RealmConfig.initial, false, []⟩

/-- The two synchronous `get_realm` failures: notifier construction failure
(`RealmFileException::Kind::AccessError`) and `MismatchedConfigException`. -/
inductive RealmErr where
  | access_error
  | mismatched_config
deriving DecidableEq, Repr

/-- The tail of `get_realm`: scan the cache for a live current-thread handle
when `config.cache` is set, otherwise construct a new handle (identified by
`new_rid`) and record it with the captured config's cache flag. -/
def getRealmFinish (s : CoordState) (config : RealmConfig) (new_rid : ℕ) :
    Except RealmErr (CoordState × ℕ) :=
  let hit := if config.cache then
    s.m_cached_realms.find? (fun c => c.current_thread && c.alive)
  else none
  match hit with
  | some c => .ok (s, c.rid)
  | none =>
    .ok ({ s with m_cached_realms := s.m_cached_realms ++ [⟨new_rid, true, true⟩] }, new_rid)

/-- `RealmCoordinator::get_realm(config)`.  `notifier_ok` stands for whether
`ExternalCommitHelper` construction succeeds (an external collaborator);
`new_rid` identifies the handle constructed if no cached one is returned. -/
def get_realm (s : CoordState) (config : RealmConfig) (notifier_ok : Bool) (new_rid : ℕ) :
    Except RealmErr (CoordState × ℕ) :=
  if (!s.m_config.read_only && !s.has_notifier)
      || (s.m_config.read_only && s.m_cached_realms.isEmpty) then
    if !config.read_only && !s.has_notifier && !notifier_ok then
      .error .access_error
    else
      getRealmFinish
        { s with m_config := config,
                 has_notifier := s.has_notifier || !config.read_only }
        config new_rid
  else
    if s.m_config.read_only != config.read_only then .error .mismatched_config
    else if s.m_config.in_memory != config.in_memory then .error .mismatched_config
    else if s.m_config.encryption_key ≠ config.encryption_key then .error .mismatched_config
    else if s.m_config.schema_version ≠ config.schema_version
        && config.schema_version ≠ NotVersioned then .error .mismatched_config
    else getRealmFinish s config new_rid

/-- The swap-remove loop of `RealmCoordinator::unregister_realm` (an entry is
dropped when its weak reference has expired or it is the unregistered
handle's; note the loop does not step back after moving the back entry in, so
the moved-in entry is not re-examined).  `fuel` bounds the iteration count;
`unregister_realm` supplies `l.length`, which the loop never exceeds. -/
def unregAux (fuel : ℕ) (l : List CachedRealm) (rid : ℕ) (i : ℕ) : List CachedRealm :=
  match fuel with
  | 0 => l
  | fuel + 1 =>
    if h : i < l.length then
      let cr := l.get ⟨i, h⟩
      if cr.alive && cr.rid != rid then unregAux fuel l rid (i + 1)
      else
        let l' := if i + 1 < l.length then (l.set i (l.getLastD cr)).dropLast else l.dropLast
        unregAux fuel l' rid (i + 1)
    else l

/-- `RealmCoordinator::unregister_realm`. -/
def unregister_realm (s : CoordState) (rid : ℕ) : CoordState :=
  { s with m_cached_realms := unregAux s.m_cached_realms.length s.m_cached_realms rid 0 }

/-! ## RealmCoordinator: async-query pipeline -/

/-- Lexicographic strict order on `SharedGroup::VersionID` pairs. -/
def vlt (a b : ℕ × ℕ) : Bool :=
  a.1 < b.1 || (a.1 == b.1 && a.2 < b.2)

/-- Modelled from the spec: the coordinator-visible face of an `AsyncQuery`
(`async_query.cpp` is not among the given sources).  Spec section 3 gives it
a registration version (`(0, 0)` once a result has been handed over), an
`is_alive()` flag driven by the consumer, and an identity used to record
`release_query()` calls. -/
structure AQuery where
  qid : ℕ
  alive : Bool
  version : ℕ × ℕ
deriving DecidableEq, Repr

instance : Inhabited AQuery := ⟨⟨0, false, (0, 0)⟩⟩

/-- A helper `SharedGroup`: whether it currently holds a read transaction and
the version of that transaction. -/
structure SgHandle where
  reading : Bool
  version : ℕ × ℕ
deriving DecidableEq, Repr

/-- The query-side state of a `RealmCoordinator`: the sticky async error, the
live and pending query lists, and the two helper shared groups (`none` when
never opened). -/
structure QueryState where
  m_async_error : Option ℕ
  m_queries : List AQuery
  m_new_queries : List AQuery
  m_query_sg : Option SgHandle
  m_advancer_sg : Option SgHandle
deriving DecidableEq, Repr

/-- A coordinator with no queries and no helper shared groups. -/
def QueryState.initial : QueryState := ⟨none, [], [], none, none⟩

/-- `SharedGroup::end_read` on an optional helper shared group. -/
def endReadOpt : Option SgHandle → Option SgHandle
  | some h => some { h with reading := false }
  | none => none

/-- The `swap_remove` lambda inside `clean_up_dead_queries`: drop every entry
whose `is_alive()` is false, overwriting it with the back entry and popping
the back, recording each removed query's id (the `release_query()` call) and
whether anything was removed.  `fuel` bounds the iteration count;
`swap_remove` supplies `l.length`, which the loop never exceeds. -/
def swapRemoveAux (fuel : ℕ) (l : List AQuery) (i : ℕ) (rel : List ℕ) (did : Bool) :
    List AQuery × List ℕ × Bool :=
  match fuel with
  | 0 => (l, rel, did)
  | fuel + 1 =>
    if h : i < l.length then
      let q := l.get ⟨i, h⟩
      if q.alive then swapRemoveAux fuel l (i + 1) rel did
      else
        let l' := if i + 1 < l.length then (l.set i (l.getLastD q)).dropLast else l.dropLast
        swapRemoveAux fuel l' i (rel ++ [q.qid]) true
    else (l, rel, did)

/-- `swap_remove(container)` from `clean_up_dead_queries`. -/
def swap_remove (l : List AQuery) : List AQuery × List ℕ × Bool :=
  swapRemoveAux l.length l 0 [] false

/-- `RealmCoordinator::clean_up_dead_queries`: swap-remove dead queries from
both lists and end the corresponding helper shared group's read when a
removal left its list empty.  Also returns the ids passed to
`release_query()`. -/
def clean_up_dead_queries (s : QueryState) : QueryState × List ℕ :=
  let r1 := swap_remove s.m_queries
  let query_sg :=
    if r1.2.2 && r1.1.isEmpty && s.m_query_sg.isSome then endReadOpt s.m_query_sg
    else s.m_query_sg
  let r2 := swap_remove s.m_new_queries
  let advancer_sg :=
    if r2.2.2 && r2.1.isEmpty && s.m_advancer_sg.isSome then endReadOpt s.m_advancer_sg
    else s.m_advancer_sg
  ({ s with m_queries := r1.1, m_new_queries := r2.1,
            m_query_sg := query_sg, m_advancer_sg := advancer_sg },
   r1.2.1 ++ r2.2.1)

/-- `RealmCoordinator::pin_version(version, index)`.  `open_ok` stands for
whether `Realm::open_with_config` on the advancer succeeds; a failure latches
`m_async_error` and drops the advancer. -/
def pin_version (s : QueryState) (v : ℕ × ℕ) (open_ok : Bool) : QueryState :=
  if s.m_async_error.isSome then s
  else
    match s.m_advancer_sg with
    | none =>
      if open_ok then { s with m_advancer_sg := some ⟨true, v⟩ }
      else { s with m_async_error := some 0, m_advancer_sg := none }
    | some sg =>
      if s.m_new_queries.isEmpty then { s with m_advancer_sg := some ⟨true, v⟩ }
      else if vlt v sg.version then { s with m_advancer_sg := some ⟨true, v⟩ }
      else s

/-- `RealmCoordinator::register_query` (under the query lock): pin the
query's version, then append it to `m_new_queries`. -/
def register_query (s : QueryState) (q : AQuery) (open_ok : Bool) : QueryState :=
  let s1 := pin_version s q.version open_ok
  { s1 with m_new_queries := s1.m_new_queries ++ [q] }

/-- Modelled from the spec: the consumer dropping an async query, which makes
`is_alive()` turn false (spec section 3: queries "die when `is_alive()` turns
false"; `AsyncQuery` itself is outside the given sources). -/
def kill_query (s : QueryState) (i : ℕ) : QueryState :=
  { s with
    m_queries := s.m_queries.map (fun q => if q.qid = i then { q with alive := false } else q),
    m_new_queries :=
      s.m_new_queries.map (fun q => if q.qid = i then { q with alive := false } else q) }

/-- `RealmCoordinator::open_helper_shared_group`.  `open_ok` stands for
whether `Realm::open_with_config` on the query shared group succeeds;
`latest` is the newest committed version a fresh `begin_read` lands on. -/
def open_helper_shared_group (s : QueryState) (open_ok : Bool) (latest : ℕ × ℕ) : QueryState :=
  match s.m_query_sg with
  | none =>
    if open_ok then { s with m_query_sg := some ⟨true, latest⟩ }
    else { s with m_async_error := some 0, m_query_sg := none }
  | some _ =>
    if s.m_queries.isEmpty then { s with m_query_sg := some ⟨true, latest⟩ }
    else s

/-- `RealmCoordinator::move_new_queries_to_main`. -/
def move_new_queries_to_main (s : QueryState) : QueryState :=
  { s with m_queries := s.m_queries ++ s.m_new_queries, m_new_queries := [] }

/-- Insertion step for sorting `m_new_queries` ascending by version
(`std::sort` with the `version()` comparator). -/
def insertByVersion (q : AQuery) : List AQuery → List AQuery
  | [] => [q]
  | x :: xs => if vlt q.version x.version then q :: x :: xs else x :: insertByVersion q xs

/-- Sort a query list ascending by version. -/
def sortByVersion (l : List AQuery) : List AQuery := l.foldr insertByVersion []

/-- `RealmCoordinator::advance_helper_shared_group_to_latest`: with no
pending queries just advance the query shared group; otherwise sort the
pending queries by version, import them through the advancer, advance both
shared groups to the newest committed version, move the pending queries to
the main list and release the advancer's read.  (`attach_to`/`detatch` calls
on the queries are external and leave this state unchanged.) -/
def advance_helper_shared_group_to_latest (s : QueryState) (latest : ℕ × ℕ) : QueryState :=
  if s.m_new_queries.isEmpty then
    { s with m_query_sg := s.m_query_sg.map (fun h => { h with version := latest }) }
  else
    let s1 := { s with
      m_new_queries := sortByVersion s.m_new_queries,
      m_advancer_sg := s.m_advancer_sg.map (fun h => { h with version := latest }),
      m_query_sg := s.m_query_sg.map (fun h => { h with version := latest }) }
    let s2 := move_new_queries_to_main s1
    { s2 with m_advancer_sg := endReadOpt s2.m_advancer_sg }

/-- What `run_async_queries` did besides updating the state: whether it
constructed a `TransactLogObserver`, whether it advanced a helper shared
group, whether it began a read on the query shared group, and the ids passed
to `release_query()`. -/
structure RunEffects where
  observer_made : Bool
  advanced : Bool
  opened : Bool
  released : List ℕ
deriving DecidableEq, Repr

/-- `RealmCoordinator::run_async_queries` (the query-list bookkeeping; the
`run`/`prepare_handover` calls on the copied query list are external and do
not change this state). -/
def run_async_queries (s : QueryState) (open_ok : Bool) (latest : ℕ × ℕ) :
    QueryState × RunEffects :=
  let c := clean_up_dead_queries s
  let s1 := c.1
  if s1.m_queries.isEmpty && s1.m_new_queries.isEmpty then
    (s1, ⟨false, false, false, c.2⟩)
  else
    let opened := s1.m_async_error.isNone
      && ((s1.m_query_sg.isNone && open_ok) || (s1.m_query_sg.isSome && s1.m_queries.isEmpty))
    let s2 := if s1.m_async_error.isNone then open_helper_shared_group s1 open_ok latest else s1
    if s2.m_async_error.isSome then
      (move_new_queries_to_main s2, ⟨false, false, opened, c.2⟩)
    else
      let s3 := advance_helper_shared_group_to_latest s2 latest
      let c2 := clean_up_dead_queries s3
      (c2.1, ⟨true, true, opened, c.2 ++ c2.2⟩)

/-! ## RealmCoordinator: consumer-side delivery -/

/-- Modelled from the spec: an `AsyncQuery` as seen by `advance_to_ready` and
`process_available_async` — its pinned version and the (externally
determined) boolean result of `deliver`. -/
structure RQuery where
  version : ℕ × ℕ
  accepts : Bool
deriving DecidableEq, Repr

/-- The version-finding loop at the top of `advance_to_ready`: the loop
variable holds each query's version in turn and the loop breaks at the first
one that differs from the default `VersionID` `(0, 0)`. -/
def findVersion : List RQuery → ℕ × ℕ
  | [] => (0, 0)
  | q :: qs => if q.version ≠ (0, 0) then q.version else findVersion qs

/-- Outcome of `advance_to_ready`/`process_available_async` on a handle: the
handle's snapshot version afterwards, whether it was advanced to the latest
committed version, the queries `deliver` was invoked on, and those that
accepted (whose `call_callbacks` run). -/
structure ReadyResult where
  handle_version : ℕ × ℕ
  advanced_to_latest : Bool
  delivered_to : List RQuery
  callbacks : List RQuery
deriving DecidableEq, Repr

/-- `RealmCoordinator::advance_to_ready(realm)`: `queries` is `m_queries`,
`handle` the handle's current snapshot version, `latest` the newest committed
version. -/
def advance_to_ready (queries : List RQuery) (handle latest : ℕ × ℕ) : ReadyResult :=
  let v := findVersion queries
  if v.1 = 0 then ⟨latest, true, [], []⟩
  else if vlt v handle then ⟨handle, false, [], []⟩
  else ⟨v, false, queries, queries.filter (fun q => q.accepts)⟩

/-- `RealmCoordinator::process_available_async(realm)`: deliver at the
handle's current version without advancing anything. -/
def process_available_async (queries : List RQuery) (handle : ℕ × ℕ) : ReadyResult :=
  ⟨handle, false, queries, queries.filter (fun q => q.accepts)⟩

/-- The oldest (minimum) pinned version among live queries, following the
wording of the spec ("locate the oldest target version among live queries");
`none` when every query's version is the sentinel.  This is the spec-side
counterpart of `findVersion`, for comparison. -/
def oldestPinnedVersion (queries : List RQuery) : Option (ℕ × ℕ) :=
  ((queries.map (fun q => q.version)).filter (fun v => v ≠ (0, 0))).foldr
    (fun a b => match b with
      | none => some a
      | some c => some (if vlt a c then a else c))
    none

/-! ## Auxiliary definitions used by the statements below -/

/-- Resolution of a row index through a `ChangeInfo`'s `moves` map: the
"original index" the observer substitutes when an entry exists. -/
def ChangeInfo.resolve (ci : ChangeInfo) (r : ℕ) : ℕ :=
  match ci.moves.lookup r with
  | some orig => orig
  | none => r

/-- Guard on one link-list event: `link_list_set` (and the two
`link_list_set`s a `link_list_swap` expands to) must target an index that is
not currently in `inserts`. -/
def llGuardB (l : LinkListInfo) : LLEvent → Bool
  | .set i => decide (i ∉ l.inserts)
  | .swap a b => decide (a ∉ l.inserts) && decide (b ∉ l.inserts)
  | _ => true

/-- The guard holds at every step of an event sequence. -/
def llGuardedAll (l : LinkListInfo) : List LLEvent → Bool
  | [] => true
  | e :: es => llGuardB l e && llGuardedAll (llApply l e) es

/-! ## IndexSet lemmas -/

theorem IndexSet.not_mem_shift_self (s : IndexSet) (i : ℕ) :
    i ∉ s.shift_for_insert_at i := by
  simp only [IndexSet.shift_for_insert_at, Finset.mem_image, not_exists]
  intro x
  rintro ⟨-, hfx⟩
  split_ifs at hfx <;> omega

theorem IndexSet.disjoint_shift_for_insert_at {s t : IndexSet} (i : ℕ)
    (h : Disjoint s t) :
    Disjoint (s.shift_for_insert_at i) (t.shift_for_insert_at i) := by
  rw [Finset.disjoint_left] at h ⊢
  intro a ha hb
  simp only [IndexSet.shift_for_insert_at, Finset.mem_image] at ha hb
  obtain ⟨x, hx, hxa⟩ := ha
  obtain ⟨y, hy, hya⟩ := hb
  have hxy : x = y := by split_ifs at hxa hya <;> omega
  subst hxy
  exact h hx hy

theorem IndexSet.disjoint_erase_at {s t : IndexSet} (i : ℕ)
    (h : Disjoint s t) : Disjoint (s.erase_at i) (t.erase_at i) := by
  rw [Finset.disjoint_left] at h ⊢
  intro a ha hb
  simp only [IndexSet.erase_at, Finset.mem_image, Finset.mem_erase] at ha hb
  obtain ⟨x, ⟨hxne, hx⟩, hxa⟩ := ha
  obtain ⟨y, ⟨hyne, hy⟩, hya⟩ := hb
  have hxy : x = y := by split_ifs at hxa hya <;> omega
  subst hxy
  exact h hx hy

/-- One guarded observer step preserves disjointness of `changes` and
`inserts`. -/
theorem llApply_disjoint {l : LinkListInfo} {e : LLEvent}
    (hg : llGuardB l e = true) (h : Disjoint l.changes l.inserts) :
    Disjoint (llApply l e).changes (llApply l e).inserts := by
  cases e with
  | set i =>
    simp only [llGuardB, decide_eq_true_eq] at hg
    simpa only [llApply, LinkListInfo.set, IndexSet.add] using
      Finset.disjoint_insert_left.mpr ⟨hg, h⟩
  | insert i =>
    simp only [llApply, LinkListInfo.insert, IndexSet.insert_at]
    exact Finset.disjoint_insert_right.mpr
      ⟨IndexSet.not_mem_shift_self _ _, IndexSet.disjoint_shift_for_insert_at _ h⟩
  | erase i =>
    simp only [llApply, LinkListInfo.erase]
    exact IndexSet.disjoint_erase_at _ h
  | nullify i =>
    simp only [llApply, LinkListInfo.erase]
    exact IndexSet.disjoint_erase_at _ h
  | swap a b =>
    simp only [llGuardB, Bool.and_eq_true, decide_eq_true_eq] at hg
    simp only [llApply, LinkListInfo.set, IndexSet.add]
    exact Finset.disjoint_insert_left.mpr ⟨hg.2, Finset.disjoint_insert_left.mpr ⟨hg.1, h⟩⟩
  | clear =>
    simp [llApply, LinkListInfo.clear_all]
  | move f t =>
    simp only [llApply, LinkListInfo.move]
    split
    · exact IndexSet.disjoint_shift_for_insert_at _ (IndexSet.disjoint_erase_at _ h)
    · exact IndexSet.disjoint_erase_at _ (IndexSet.disjoint_shift_for_insert_at _ h)

/-- Claim C2 (amended): for any observed link-list and any event sequence in
which every `link_list_set`/`link_list_swap` targets an index not currently
in `inserts`, the final `changes` and `inserts` sets are disjoint. -/
theorem c2_changes_inserts_disjoint_guarded :
    ∀ (es : List LLEvent) (l : LinkListInfo),
      Disjoint l.changes l.inserts → llGuardedAll l es = true →
      Disjoint (llRun l es).changes (llRun l es).inserts := by
  intro es
  induction es with
  | nil =>
    intro l h _
    simpa [llRun] using h
  | cons e es ih =>
    intro l h hg
    simp only [llGuardedAll, Bool.and_eq_true] at hg
    exact ih (llApply l e) (llApply_disjoint hg.1 h) hg.2

/-- Claim C2, counterexample to the unguarded statement: inserting at index 0
and then setting index 0 puts 0 into both `changes` and `inserts`, so the two
sets are not disjoint. -/
theorem c2_counterexample :
    ¬ Disjoint (llRun ⟨0, 0, 0, ∅, ∅, ∅, [], false⟩ [.insert 0, .set 0]).changes
        (llRun ⟨0, 0, 0, ∅, ∅, ∅, [], false⟩ [.insert 0, .set 0]).inserts := by
  intro h
  have h0 : (0 : ℕ) ∈ (llRun ⟨0, 0, 0, ∅, ∅, ∅, [], false⟩ [.insert 0, .set 0]).changes := by
    decide
  have h1 : (0 : ℕ) ∈ (llRun ⟨0, 0, 0, ∅, ∅, ∅, [], false⟩ [.insert 0, .set 0]).inserts := by
    decide
  exact Finset.disjoint_left.mp h h0 h1

/-- Claim C2, witness: a concrete guarded run ending with disjoint `changes`
and `inserts`. -/
theorem c2_witness :
    llGuardedAll ⟨0, 0, 0, ∅, ∅, ∅, [], false⟩ [.insert 0, .set 1] = true ∧
    Disjoint (llRun ⟨0, 0, 0, ∅, ∅, ∅, [], false⟩ [.insert 0, .set 1]).changes
      (llRun ⟨0, 0, 0, ∅, ∅, ∅, [], false⟩ [.insert 0, .set 1]).inserts :=
  ⟨by decide,
   c2_changes_inserts_disjoint_guarded [.insert 0, .set 1] ⟨0, 0, 0, ∅, ∅, ∅, [], false⟩
     (by simp) (by decide)⟩

/-- Claim C3: evaluating the observer on scenario S2 — an active link-list
processing `link_list_insert(1)`, `link_list_insert(2)`, `link_list_erase(1)`
— yields `inserts = {1}` and `changes = ∅` as the spec expects, but
`deletes = {1}`, not `∅`: the erase of a just-inserted element is still
recorded as a deletion (the handler the source marks "probably wrong for
mixed insert/delete"). -/
theorem c3_link_list_insert_erase_eval :
    (llRun ⟨0, 0, 0, ∅, ∅, ∅, [], false⟩ [.insert 1, .insert 2, .erase 1]).inserts = {1} ∧
    (llRun ⟨0, 0, 0, ∅, ∅, ∅, [], false⟩ [.insert 1, .insert 2, .erase 1]).changes = ∅ ∧
    (llRun ⟨0, 0, 0, ∅, ∅, ∅, [], false⟩ [.insert 1, .insert 2, .erase 1]).deletes = {1} ∧
    (llRun ⟨0, 0, 0, ∅, ∅, ∅, [], false⟩ [.insert 1, .insert 2, .erase 1]).deletes ≠ ∅ := by
  refine ⟨by decide, by decide, by decide, by decide⟩

/-! ## Per-table change tracking (claim C1) -/

/-- Looking up the freshly assigned key of `mapAssign` yields the assigned
value. -/
theorem lookup_mapAssign (m : List (ℕ × ℕ)) (k v : ℕ) :
    (mapAssign m k v).lookup k = some v := by
  induction m with
  | nil => simp [mapAssign, List.lookup]
  | cons p rest ih =>
    obtain ⟨k', v'⟩ := p
    by_cases h : k' = k
    · subst h
      simp [mapAssign, List.lookup]
    · have hbeq : (k == k') = false := beq_eq_false_iff_ne.mpr (Ne.symm h)
      simp [mapAssign, h, List.lookup, hbeq, ih]

/-- Claim C1: `erase_rows` on a table's change state increments `deletions`
and records `moves[row] :=` the original index of the prior last row
(resolving `prior_n - 1` through an existing `moves` entry first); a
subsequent row mutation whose row has a `moves` entry records the mapped
original index in `changed`, never the current index; and the S1 scenario
(`erase_rows(1, 1, 4, unordered)` then `set_int(0, 1, _)` on a fresh
observer) ends with `deletions = 1`, `moves = {1 ↦ 3}`, `changed = {3}`. -/
theorem c1_swap_remove_bookkeeping :
    (∀ (ci : ChangeInfo) (row prior : ℕ),
      (ci.erase_rows row prior).deletions = ci.deletions + 1 ∧
      (ci.erase_rows row prior).moves.lookup row = some (ci.resolve (prior - 1))) ∧
    (∀ (ci : ChangeInfo) (row orig : ℕ), ci.moves.lookup row = some orig →
      (ci.mark_dirty row).changed = insert orig ci.changed ∧
      (orig ≠ row → row ∉ ci.changed → row ∉ (ci.mark_dirty row).changed)) ∧
    obsRun ObsState.init [.erase_rows 1 4 true, .set_int 0 1] =
      some ⟨0, [⟨1, [(1, 3)], {3}⟩], [], none⟩ := by
  refine ⟨?_, ?_, by decide⟩
  · intro ci row prior
    refine ⟨by simp [ChangeInfo.erase_rows], ?_⟩
    simp only [ChangeInfo.erase_rows, ChangeInfo.resolve]
    exact lookup_mapAssign _ _ _
  · intro ci row orig h
    constructor
    · simp [ChangeInfo.mark_dirty, h]
    · intro hne hnm
      simp only [ChangeInfo.mark_dirty, h, Finset.mem_insert]
      rintro (h1 | h2)
      · exact hne h1.symm
      · exact hnm h2

/-- Claim C1, witness: the general statements instantiated at the S1 values. -/
theorem c1_witness :
    (ChangeInfo.erase_rows ⟨0, [], ∅⟩ 1 4).deletions = 0 + 1 ∧
    (ChangeInfo.erase_rows ⟨0, [], ∅⟩ 1 4).moves.lookup 1 =
      some (ChangeInfo.resolve ⟨0, [], ∅⟩ (4 - 1)) ∧
    (ChangeInfo.mark_dirty ⟨1, [(1, 3)], ∅⟩ 1).changed = insert 3 ∅ :=
  ⟨(c1_swap_remove_bookkeeping.1 ⟨0, [], ∅⟩ 1 4).1,
   (c1_swap_remove_bookkeeping.1 ⟨0, [], ∅⟩ 1 4).2,
   (c1_swap_remove_bookkeeping.2.1 ⟨1, [(1, 3)], ∅⟩ 1 3 (by decide)).1⟩

/-! ## Validator policy (claims C4, C10) and observer rejection (claim C9) -/

/-- Claim C4: the validator accepts search-index changes and new top-level
tables unconditionally; accepts column inserts, link-column inserts, primary
keys and link-type changes exactly when the selected table is in
`new_tables`, raising the schema-mismatch error otherwise; always raises the
schema-mismatch error for erases, renames, moves and primary-key removal;
and rejects (returns `false` for) selecting a descriptor at non-zero
nesting level. -/
theorem c4_validator_event_policy :
    (∀ s : VState, valStep s .add_search_index = .ok (s, true) ∧
      valStep s .remove_search_index = .ok (s, true)) ∧
    (∀ (s : VState) (t : ℕ),
      valStep s (.insert_group_level_table t) = .ok (s.insert_group_level_table t, true)) ∧
    (∀ s : VState, s.current_table ∈ s.new_tables →
      valStep s .insert_column = .ok (s, true) ∧
      valStep s .insert_link_column = .ok (s, true) ∧
      valStep s .add_primary_key = .ok (s, true) ∧
      valStep s .set_link_type = .ok (s, true)) ∧
    (∀ s : VState, s.current_table ∉ s.new_tables →
      valStep s .insert_column = .error () ∧
      valStep s .insert_link_column = .error () ∧
      valStep s .add_primary_key = .error () ∧
      valStep s .set_link_type = .error ()) ∧
    (∀ s : VState,
      valStep s .erase_group_level_table = .error () ∧
      valStep s .rename_group_level_table = .error () ∧
      valStep s .erase_column = .error () ∧
      valStep s .erase_link_column = .error () ∧
      valStep s .rename_column = .error () ∧
      valStep s .remove_primary_key = .error () ∧
      valStep s .move_column = .error () ∧
      valStep s .move_group_level_table = .error ()) ∧
    (∀ (s : VState) (levels : ℕ),
      valStep s (.select_descriptor levels) = .ok (s, levels == 0)) := by
  refine ⟨fun s => ⟨rfl, rfl⟩, fun s t => rfl, ?_, ?_,
    fun s => ⟨rfl, rfl, rfl, rfl, rfl, rfl, rfl, rfl⟩, fun s levels => rfl⟩
  · intro s h
    simp [valStep, VState.schema_error_unless_new_table, h]
  · intro s h
    simp [valStep, VState.schema_error_unless_new_table, h]

/-- Claim C4, witness: a column insert is accepted on a freshly created table
and raises the schema-mismatch error on a pre-existing one. -/
theorem c4_witness :
    valStep ⟨0, [0]⟩ .insert_column = .ok (⟨0, [0]⟩, true) ∧
    valStep ⟨0, []⟩ .insert_column = .error () :=
  ⟨(c4_validator_event_policy.2.2.1 ⟨0, [0]⟩ (by decide)).1,
   (c4_validator_event_policy.2.2.2.1 ⟨0, []⟩ (by decide)).1⟩

/-- Claim C9: the observer's `insert_group_level_table` override returns
`false` in every state, so any event list containing it makes observer-side
parsing abort (`obsRun = none`) — while the validator accepts the same
event. -/
theorem c9_observer_rejects_new_table :
    (∀ (s : ObsState) (t : ℕ), s.insert_group_level_table t = (s, false)) ∧
    (∀ (s : ObsState) (es : List OEvent) (t : ℕ),
      OEvent.insert_group_level_table t ∈ es → obsRun s es = none) ∧
    (∀ (s : VState) (t : ℕ),
      valStep s (.insert_group_level_table t) = .ok (s.insert_group_level_table t, true)) := by
  refine ⟨fun s t => rfl, ?_, fun s t => rfl⟩
  intro s es t
  induction es generalizing s with
  | nil => intro h; cases h
  | cons e es ih =>
    intro h
    rcases List.mem_cons.mp h with h1 | h2
    · subst h1
      simp [obsRun, obsStep, ObsState.insert_group_level_table]
    · cases hstep : obsStep s e with
      | none => simp [obsRun, hstep]
      | some s' =>
        simp only [obsRun, hstep]
        exact ih s' h2

/-- Claim C9, witness: a one-event transaction creating a table is not
condensed by the observer. -/
theorem c9_witness : obsRun ObsState.init [.insert_group_level_table 0] = none :=
  c9_observer_rejects_new_table.2.1 ObsState.init [.insert_group_level_table 0] 0 (by decide)

/-- Claim C10: `insert_group_level_table` first shifts every recorded
new-table index `≥ table_ndx` and then records `table_ndx`, so membership of
a (suitably shifted) earlier table survives, and a column insert into a table
created earlier in the transaction is still accepted after a second table is
inserted before it. -/
theorem c10_new_tables_shift_invariant :
    (∀ (s : VState) (t x : ℕ), x ∈ s.new_tables →
      (if x ≥ t then x + 1 else x) ∈ (s.insert_group_level_table t).new_tables) ∧
    (∀ (s : VState) (t : ℕ), t ∈ (s.insert_group_level_table t).new_tables) ∧
    valRun ⟨0, []⟩ [.insert_group_level_table 1, .insert_group_level_table 0,
      .select_table 2, .insert_column] = some ⟨2, [2, 0]⟩ := by
  refine ⟨?_, ?_, by decide⟩
  · intro s t x hx
    simp only [VState.insert_group_level_table, List.mem_append]
    exact Or.inl (List.mem_map_of_mem _ hx)
  · intro s t
    simp [VState.insert_group_level_table]

/-- Claim C10, witness: recorded table 5 is still identified (as 6) after a
table is inserted at index 3. -/
theorem c10_witness :
    (if 5 ≥ 3 then 5 + 1 else 5) ∈ (VState.insert_group_level_table ⟨0, [5]⟩ 3).new_tables :=
  c10_new_tables_shift_invariant.1 ⟨0, [5]⟩ 3 5 (by decide)

/-! ## Consumer-side delivery (claim C5) -/

theorem vlt_irrefl (a : ℕ × ℕ) : vlt a a = false := by
  simp [vlt]

/-- Claim C5 (amended): `advance_to_ready` keys off the first (in list
order) query whose version is not the sentinel: with no such version (or one
whose numeric component is 0) it advances the handle to the latest committed
version and delivers nothing; when that version precedes the handle's it
changes nothing; otherwise it advances the handle exactly to it — so never
past it — and delivers to every query.  `process_available_async` never
moves the handle. -/
theorem c5_advance_to_ready_first_pinned :
    (∀ (qs : List RQuery) (handle latest : ℕ × ℕ),
      ((findVersion qs).1 = 0 →
        advance_to_ready qs handle latest = ⟨latest, true, [], []⟩) ∧
      ((findVersion qs).1 ≠ 0 → vlt (findVersion qs) handle = true →
        advance_to_ready qs handle latest = ⟨handle, false, [], []⟩) ∧
      ((findVersion qs).1 ≠ 0 → vlt (findVersion qs) handle = false →
        advance_to_ready qs handle latest =
          ⟨findVersion qs, false, qs, qs.filter (fun q => q.accepts)⟩) ∧
      ((findVersion qs).1 ≠ 0 →
        vlt (findVersion qs) (advance_to_ready qs handle latest).handle_version = false ∨
        (advance_to_ready qs handle latest).handle_version = handle)) ∧
    (∀ (qs : List RQuery) (handle : ℕ × ℕ),
      process_available_async qs handle =
        ⟨handle, false, qs, qs.filter (fun q => q.accepts)⟩) := by
  refine ⟨?_, fun qs handle => rfl⟩
  intro qs handle latest
  refine ⟨fun h0 => by simp [advance_to_ready, h0], fun h0 hlt => ?_, fun h0 hlt => ?_, fun h0 => ?_⟩
  · simp [advance_to_ready, h0, hlt]
  · simp [advance_to_ready, h0, hlt]
  · by_cases hlt : vlt (findVersion qs) handle = true
    · exact Or.inr (by simp [advance_to_ready, h0, hlt])
    · have hlt' : vlt (findVersion qs) handle = false := by
        cases hv : vlt (findVersion qs) handle
        · rfl
        · exact absurd hv hlt
      exact Or.inl (by simp [advance_to_ready, h0, hlt', vlt_irrefl])

/-- Claim C5, counterexample: with `m_queries = [version (3,0), version
(2,0)]` and the handle at `(1,0)`, the oldest pinned version is `(2,0)` but
`advance_to_ready` advances the handle to `(3,0)` — strictly past the oldest
live query's pinned version, because the loop uses the first non-sentinel
version, not the minimum. -/
theorem c5_counterexample :
    (advance_to_ready [⟨(3, 0), true⟩, ⟨(2, 0), true⟩] (1, 0) (5, 0)).handle_version = (3, 0) ∧
    oldestPinnedVersion [⟨(3, 0), true⟩, ⟨(2, 0), true⟩] = some (2, 0) ∧
    vlt (2, 0) (3, 0) = true ∧
    vlt (1, 0) (2, 0) = true := by
  refine ⟨by decide, by decide, by decide, by decide⟩

/-- Claim C5, witness: the amended statement instantiated on a singleton
query list. -/
theorem c5_witness :
    advance_to_ready [⟨(2, 0), true⟩] (1, 0) (5, 0) =
      ⟨(2, 0), false, [⟨(2, 0), true⟩], [⟨(2, 0), true⟩]⟩ :=
  ((c5_advance_to_ready_first_pinned.1 [⟨(2, 0), true⟩] (1, 0) (5, 0)).2.2.1
    (by decide) (by decide))

/-! ## Configuration reconciliation (claim C6) -/

/-- Claim C6 (amended): once a configuration has been captured, then as long
as the coordinator is not back in its capture state (read-write captured:
notifier still present; read-only captured: some cached handle remains), a
`get_realm` whose configuration differs in the read-only flag, the in-memory
flag, the encryption key, or — when the incoming schema version is not the
unversioned sentinel — the schema version, fails with the
mismatched-configuration error. -/
theorem c6_config_mismatch_guarded :
    ∀ (s : CoordState) (config : RealmConfig) (ok : Bool) (rid : ℕ),
      ((!s.m_config.read_only && !s.has_notifier)
        || (s.m_config.read_only && s.m_cached_realms.isEmpty)) = false →
      (s.m_config.read_only ≠ config.read_only ∨
       s.m_config.in_memory ≠ config.in_memory ∨
       s.m_config.encryption_key ≠ config.encryption_key ∨
       (s.m_config.schema_version ≠ config.schema_version ∧
        config.schema_version ≠ NotVersioned)) →
      get_realm s config ok rid = .error .mismatched_config := by
  intro s config ok rid hc hdiff
  rw [get_realm, hc]
  simp only [Bool.false_eq_true, if_false]
  by_cases h1 : s.m_config.read_only = config.read_only
  case neg => simp [bne_iff_ne, h1]
  case pos =>
  by_cases h2 : s.m_config.in_memory = config.in_memory
  case neg => simp [bne_iff_ne, h1, h2]
  case pos =>
  by_cases h3 : s.m_config.encryption_key = config.encryption_key
  case neg => simp [bne_iff_ne, h1, h2, h3]
  case pos =>
  rcases hdiff with h | h | h | ⟨hv1, hv2⟩
  · exact absurd h1 h
  · exact absurd h2 h
  · exact absurd h3 h
  · simp [bne_iff_ne, h1, h2, h3, hv1, hv2]

/-- Claim C6, counterexample to the unguarded statement: open read-only
(configuration captured), unregister the only handle, then open read-write —
the second open succeeds (the coordinator re-captures the configuration)
instead of failing with the mismatched-configuration error, although the two
configurations differ in the read-only flag. -/
theorem c6_counterexample :
    get_realm CoordState.initial ⟨true, false, [], 1, true⟩ true 0 =
      .ok (⟨⟨true, false, [], 1, true⟩, false, [⟨0, true, true⟩]⟩, 0) ∧
    (get_realm (unregister_realm ⟨⟨true, false, [], 1, true⟩, false, [⟨0, true, true⟩]⟩ 0)
      ⟨false, false, [], 1, true⟩ true 1).isOk = true ∧
    (⟨true, false, [], 1, true⟩ : RealmConfig).read_only ≠
      (⟨false, false, [], 1, true⟩ : RealmConfig).read_only := by
  refine ⟨by rfl, by rfl, by decide⟩

/-- Claim C6, witness: scenario S4 — the handle from the read-only open is
still registered, so the read-write open fails with the
mismatched-configuration error. -/
theorem c6_witness :
    get_realm ⟨⟨true, false, [], 1, true⟩, false, [⟨0, true, true⟩]⟩
      ⟨false, false, [], 1, true⟩ true 1 = .error .mismatched_config :=
  c6_config_mismatch_guarded _ _ true 1 (by decide) (Or.inl (by decide))

/-! ## The swap-remove loop (claims C7 and C8) -/

/-- One removal iteration of the swap-remove loop: the list before it is a
permutation of the removed element consed onto the list after it. -/
theorem removeStep_perm (l : List AQuery) (i : ℕ) (h : i < l.length) :
    l.Perm (l.get ⟨i, h⟩ ::
      (if i + 1 < l.length then (l.set i (l.getLastD (l.get ⟨i, h⟩))).dropLast
       else l.dropLast)) := by
  have hne : l ≠ [] := by
    intro h0
    rw [h0] at h
    simp at h
  by_cases hcase : i + 1 < l.length
  · rw [if_pos hcase]
    have hDne : l.drop (i + 1) ≠ [] := by
      intro h0
      have hl := congrArg List.length h0
      rw [List.length_drop] at hl
      simp at hl
      omega
    have hw : (l.drop (i + 1)).getLast? = some ((l.drop (i + 1)).getLast hDne) :=
      List.getLast?_eq_getLast _ hDne
    have hlz : l.getLast? = some ((l.drop (i + 1)).getLast hDne) := by
      conv_lhs => rw [← List.take_append_drop (i + 1) l]
      rw [List.getLast?_append_of_ne_nil _ hDne]
      exact hw
    have hz : l.getLastD (l.get ⟨i, h⟩) = (l.drop (i + 1)).getLast hDne := by
      rw [List.getLastD_eq_getLast?, hlz]
      rfl
    have hD : (l.drop (i + 1)).dropLast ++ [(l.drop (i + 1)).getLast hDne] = l.drop (i + 1) :=
      List.dropLast_append_getLast hDne
    have hset : l.set i (l.getLastD (l.get ⟨i, h⟩)) =
        l.take i ++ (l.drop (i + 1)).getLast hDne :: l.drop (i + 1) := by
      rw [hz]
      exact List.set_eq_take_cons_drop _ h
    have hdl : (l.set i (l.getLastD (l.get ⟨i, h⟩))).dropLast =
        l.take i ++ (l.drop (i + 1)).getLast hDne :: (l.drop (i + 1)).dropLast := by
      rw [hset]
      rw [show ((l.drop (i + 1)).getLast hDne :: l.drop (i + 1)) =
        [(l.drop (i + 1)).getLast hDne] ++ l.drop (i + 1) from rfl]
      rw [← List.append_assoc]
      rw [List.dropLast_append_of_ne_nil _ hDne]
      simp
    rw [hdl]
    have hdecomp : l = l.take i ++ l.get ⟨i, h⟩ :: l.drop (i + 1) := by
      conv_lhs => rw [← List.take_append_drop i l]
      congr 1
      rw [List.drop_eq_getElem_cons h, List.get_eq_getElem]
    have p1 : (l.take i ++ l.get ⟨i, h⟩ :: l.drop (i + 1)).Perm
        (l.get ⟨i, h⟩ :: (l.take i ++ l.drop (i + 1))) := List.perm_middle
    rw [← hdecomp] at p1
    have p2 : ((l.drop (i + 1)).dropLast ++ [(l.drop (i + 1)).getLast hDne]).Perm
        ((l.drop (i + 1)).getLast hDne :: (l.drop (i + 1)).dropLast) :=
      List.perm_append_singleton _ _
    rw [hD] at p2
    exact p1.trans (List.Perm.cons _ (List.Perm.append_left _ p2))
  · rw [if_neg hcase]
    have hi : i = l.length - 1 := by omega
    subst hi
    have hlast : l.get ⟨l.length - 1, h⟩ = l.getLast hne := by
      rw [List.get_eq_getElem, List.getLast_eq_getElem]
    rw [hlast]
    have p : (l.dropLast ++ [l.getLast hne]).Perm (l.getLast hne :: l.dropLast) :=
      List.perm_append_singleton _ _
    rw [List.dropLast_append_getLast hne] at p
    exact p

/-- The list suffix past a removal in the middle is nonempty. -/
theorem drop_succ_ne_nil (l : List AQuery) (i : ℕ) (hcase : i + 1 < l.length) :
    l.drop (i + 1) ≠ [] := by
  intro h0
  have hl := congrArg List.length h0
  rw [List.length_drop] at hl
  simp at hl
  omega

/-- A removal iteration does not disturb the already-scanned prefix. -/
theorem removeStep_take (l : List AQuery) (i : ℕ) (h : i < l.length) :
    (if i + 1 < l.length then (l.set i (l.getLastD (l.get ⟨i, h⟩))).dropLast
     else l.dropLast).take i = l.take i := by
  by_cases hcase : i + 1 < l.length
  · rw [if_pos hcase]
    rw [List.set_eq_take_cons_drop _ h]
    have hDne := drop_succ_ne_nil l i hcase
    rw [show (l.getLastD (l.get ⟨i, h⟩) :: l.drop (i + 1)) =
      [l.getLastD (l.get ⟨i, h⟩)] ++ l.drop (i + 1) from rfl]
    rw [← List.append_assoc, List.dropLast_append_of_ne_nil _ hDne]
    rw [List.append_assoc]
    exact List.take_left' (by rw [List.length_take]; omega)
  · rw [if_neg hcase]
    rw [List.dropLast_eq_take, List.take_take]
    congr 1
    omega

/-- A removal iteration shortens the list by exactly one entry. -/
theorem removeStep_length (l : List AQuery) (i : ℕ) (h : i < l.length) :
    (if i + 1 < l.length then (l.set i (l.getLastD (l.get ⟨i, h⟩))).dropLast
     else l.dropLast).length = l.length - 1 := by
  split <;> simp [List.length_dropLast, List.length_set]

/-- Exhausted scan: when every entry is alive the loop's results are
trivial. -/
theorem swapRemoveDone (l : List AQuery) (rel : List ℕ) (did : Bool)
    (hall : ∀ q ∈ l, q.alive = true) :
    l.Perm (l.filter fun q => q.alive) ∧
    rel.Perm (rel ++ (l.filter fun q => !q.alive).map fun q => q.qid) ∧
    did = (did || l.any fun q => !q.alive) := by
  refine ⟨?_, ?_, ?_⟩
  · rw [List.filter_eq_self.mpr hall]
  · have hdead : (l.filter fun q => !q.alive) = [] := by
      rw [List.filter_eq_nil_iff]
      intro q hq
      simp [hall q hq]
    simp [hdead]
  · have hany : (l.any fun q => !q.alive) = false := by
      rw [List.any_eq_false]
      intro q hq
      simp [hall q hq]
    simp [hany]

/-- Behaviour of the swap-remove loop: given enough fuel and an already
verified prefix, the surviving list is a permutation of the alive entries,
the released ids are (up to permutation) the dead entries' ids appended to
the accumulator, and the removal flag records whether any entry was dead. -/
theorem swapRemoveAux_spec :
    ∀ (fuel : ℕ) (l : List AQuery) (i : ℕ) (rel : List ℕ) (did : Bool),
      l.length - i ≤ fuel → (∀ q ∈ l.take i, q.alive = true) →
      (swapRemoveAux fuel l i rel did).1.Perm (l.filter fun q => q.alive) ∧
      (swapRemoveAux fuel l i rel did).2.1.Perm
        (rel ++ (l.filter fun q => !q.alive).map fun q => q.qid) ∧
      (swapRemoveAux fuel l i rel did).2.2 = (did || l.any fun q => !q.alive) := by
  intro fuel
  induction fuel with
  | zero =>
    intro l i rel did hf hpre
    have hall : ∀ q ∈ l, q.alive = true := by
      have htake : l.take i = l := List.take_of_length_le (by omega)
      rw [htake] at hpre
      exact hpre
    simpa [swapRemoveAux] using swapRemoveDone l rel did hall
  | succ fuel ih =>
    intro l i rel did hf hpre
    by_cases h : i < l.length
    · simp only [swapRemoveAux, dif_pos h]
      by_cases ha : (l.get ⟨i, h⟩).alive = true
      · rw [if_pos ha]
        have hgl : l[i]? = some (l.get ⟨i, h⟩) := by
          rw [List.getElem?_eq_getElem h, List.get_eq_getElem]
        refine ih l (i + 1) rel did (by omega) ?_
        intro q hq
        rw [List.take_succ, hgl] at hq
        rcases List.mem_append.mp hq with h1 | h2
        · exact hpre q h1
        · simp only [Option.toList_some, List.mem_singleton] at h2
          subst h2
          exact ha
      · rw [if_neg ha]
        have ha' : (l.get ⟨i, h⟩).alive = false := by
          cases hv : (l.get ⟨i, h⟩).alive
          · rfl
          · exact absurd hv ha
        rw [List.get_eq_getElem] at ha'
        have hperm := removeStep_perm l i h
        have hlen := removeStep_length l i h
        have htake := removeStep_take l i h
        have hih := ih
          (if i + 1 < l.length then (l.set i (l.getLastD (l.get ⟨i, h⟩))).dropLast
           else l.dropLast)
          i (rel ++ [(l.get ⟨i, h⟩).qid]) true (by rw [hlen]; omega)
          (by rw [htake]; exact hpre)
        have hfa : (l.filter fun q => q.alive).Perm
            ((if i + 1 < l.length then (l.set i (l.getLastD (l.get ⟨i, h⟩))).dropLast
              else l.dropLast).filter fun q => q.alive) := by
          have := hperm.filter (fun q => q.alive)
          rwa [List.filter_cons_of_neg (by simp [ha'])] at this
        have hfd : (l.filter fun q => !q.alive).Perm
            ((l.get ⟨i, h⟩) ::
              ((if i + 1 < l.length then (l.set i (l.getLastD (l.get ⟨i, h⟩))).dropLast
                else l.dropLast).filter fun q => !q.alive)) := by
          have := hperm.filter (fun q => !q.alive)
          rwa [List.filter_cons_of_pos (by simp [ha'])] at this
        refine ⟨hih.1.trans hfa.symm, ?_, ?_⟩
        · refine hih.2.1.trans ?_
          have hmap := (hfd.map (fun q => q.qid)).symm
          simp only [List.map_cons] at hmap
          have hrel := hmap.append_left rel
          rw [List.append_assoc]
          exact hrel
        · rw [hih.2.2]
          have hany : (l.any fun q => !q.alive) = true := by
            rw [List.any_eq_true]
            exact ⟨l.get ⟨i, h⟩, List.get_mem l i h, by simp [ha']⟩
          simp [hany]
    · simp only [swapRemoveAux, dif_neg h]
      have hall : ∀ q ∈ l, q.alive = true := by
        have htake : l.take i = l := List.take_of_length_le (by omega)
        rw [htake] at hpre
        exact hpre
      exact swapRemoveDone l rel did hall

/-- The swap-remove loop keeps exactly the alive queries, releases exactly
the dead ones, and reports whether anything was removed. -/
theorem swap_remove_spec (l : List AQuery) :
    (swap_remove l).1.Perm (l.filter fun q => q.alive) ∧
    (swap_remove l).2.1.Perm ((l.filter fun q => !q.alive).map fun q => q.qid) ∧
    (swap_remove l).2.2 = (l.any fun q => !q.alive) := by
  have h := swapRemoveAux_spec l.length l 0 [] false (by omega) (by simp)
  simpa [swap_remove] using h

/-- Membership form of `swap_remove_spec`. -/
theorem swap_remove_mem (l : List AQuery) (q : AQuery) :
    q ∈ (swap_remove l).1 ↔ q ∈ l ∧ q.alive = true := by
  rw [(swap_remove_spec l).1.mem_iff]
  simp [List.mem_filter]

/-- `clean_up_dead_queries` touches neither the async error nor aliveness. -/
theorem clean_up_error_eq (s : QueryState) :
    (clean_up_dead_queries s).1.m_async_error = s.m_async_error := rfl

/-- Membership in the cleaned main list. -/
theorem clean_up_mem_queries (s : QueryState) (q : AQuery) :
    q ∈ (clean_up_dead_queries s).1.m_queries ↔ q ∈ s.m_queries ∧ q.alive = true := by
  show q ∈ (swap_remove s.m_queries).1 ↔ _
  exact swap_remove_mem _ _

/-- Membership in the cleaned pending list. -/
theorem clean_up_mem_new_queries (s : QueryState) (q : AQuery) :
    q ∈ (clean_up_dead_queries s).1.m_new_queries ↔ q ∈ s.m_new_queries ∧ q.alive = true := by
  show q ∈ (swap_remove s.m_new_queries).1 ↔ _
  exact swap_remove_mem _ _

/-- Claim C8 (amended): `clean_up_dead_queries` swap-removes exactly the
non-alive queries from both lists (the survivors are a permutation of the
alive entries), passes exactly the removed queries to `release_query`, and
releases a helper snapshot's read when a removal leaves its list empty — but
only then: with no removal a snapshot is left untouched, even if its list was
already empty. -/
theorem c8_clean_up_dead_queries_spec :
    ∀ s : QueryState,
      (clean_up_dead_queries s).1.m_queries.Perm
        (s.m_queries.filter fun q => q.alive) ∧
      (clean_up_dead_queries s).1.m_new_queries.Perm
        (s.m_new_queries.filter fun q => q.alive) ∧
      (clean_up_dead_queries s).2.Perm
        (((s.m_queries ++ s.m_new_queries).filter fun q => !q.alive).map fun q => q.qid) ∧
      (∀ hsg : SgHandle, s.m_queries ≠ [] → (clean_up_dead_queries s).1.m_queries = [] →
        s.m_query_sg = some hsg →
        (clean_up_dead_queries s).1.m_query_sg = some { hsg with reading := false }) ∧
      (∀ hsg : SgHandle, s.m_new_queries ≠ [] →
        (clean_up_dead_queries s).1.m_new_queries = [] → s.m_advancer_sg = some hsg →
        (clean_up_dead_queries s).1.m_advancer_sg = some { hsg with reading := false }) ∧
      ((s.m_queries.all fun q => q.alive) = true →
        (clean_up_dead_queries s).1.m_query_sg = s.m_query_sg) ∧
      ((s.m_new_queries.all fun q => q.alive) = true →
        (clean_up_dead_queries s).1.m_advancer_sg = s.m_advancer_sg) := by
  intro s
  have spec1 := swap_remove_spec s.m_queries
  have spec2 := swap_remove_spec s.m_new_queries
  refine ⟨spec1.1, spec2.1, ?_, ?_, ?_, ?_, ?_⟩
  · show ((swap_remove s.m_queries).2.1 ++ (swap_remove s.m_new_queries).2.1).Perm _
    refine (spec1.2.1.append spec2.2.1).trans ?_
    rw [List.filter_append, List.map_append]
  · intro hsg hne hempty hq
    replace hempty : (swap_remove s.m_queries).1 = [] := hempty
    have hfilter : (s.m_queries.filter fun q => q.alive) = [] := by
      have hp := spec1.1.symm
      rw [hempty] at hp
      exact (List.perm_nil.mp hp)
    have hdid : (swap_remove s.m_queries).2.2 = true := by
      rw [spec1.2.2]
      obtain ⟨q0, hq0⟩ := List.exists_mem_of_ne_nil _ hne
      have hq0d : q0.alive = false := by
        cases hv : q0.alive
        · rfl
        · exact absurd (List.mem_filter.mpr ⟨hq0, hv⟩) (by simp [hfilter])
      rw [List.any_eq_true]
      exact ⟨q0, hq0, by simp [hq0d]⟩
    show (if (swap_remove s.m_queries).2.2 && (swap_remove s.m_queries).1.isEmpty
        && s.m_query_sg.isSome then endReadOpt s.m_query_sg else s.m_query_sg) = _
    rw [hdid, hempty, hq]
    simp [endReadOpt]
  · intro hsg hne hempty hq
    replace hempty : (swap_remove s.m_new_queries).1 = [] := hempty
    have hfilter : (s.m_new_queries.filter fun q => q.alive) = [] := by
      have hp := spec2.1.symm
      rw [hempty] at hp
      exact (List.perm_nil.mp hp)
    have hdid : (swap_remove s.m_new_queries).2.2 = true := by
      rw [spec2.2.2]
      obtain ⟨q0, hq0⟩ := List.exists_mem_of_ne_nil _ hne
      have hq0d : q0.alive = false := by
        cases hv : q0.alive
        · rfl
        · exact absurd (List.mem_filter.mpr ⟨hq0, hv⟩) (by simp [hfilter])
      rw [List.any_eq_true]
      exact ⟨q0, hq0, by simp [hq0d]⟩
    show (if (swap_remove s.m_new_queries).2.2 && (swap_remove s.m_new_queries).1.isEmpty
        && s.m_advancer_sg.isSome then endReadOpt s.m_advancer_sg else s.m_advancer_sg) = _
    rw [hdid, hempty, hq]
    simp [endReadOpt]
  · intro hall
    have hdid : (swap_remove s.m_queries).2.2 = false := by
      rw [spec1.2.2, List.any_eq_false]
      intro q hq
      simp [List.all_eq_true.mp hall q hq]
    show (if (swap_remove s.m_queries).2.2 && (swap_remove s.m_queries).1.isEmpty
        && s.m_query_sg.isSome then endReadOpt s.m_query_sg else s.m_query_sg) = _
    rw [hdid]
    simp
  · intro hall
    have hdid : (swap_remove s.m_new_queries).2.2 = false := by
      rw [spec2.2.2, List.any_eq_false]
      intro q hq
      simp [List.all_eq_true.mp hall q hq]
    show (if (swap_remove s.m_new_queries).2.2 && (swap_remove s.m_new_queries).1.isEmpty
        && s.m_advancer_sg.isSome then endReadOpt s.m_advancer_sg else s.m_advancer_sg) = _
    rw [hdid]
    simp

/-- Claim C8, counterexample to "helper snapshots are released whenever both
lists are empty": register a query (pinning opens an advancer read), let the
query-side open fail (latching the async error, which moves the pending query
to the main list without touching the advancer), let the query die, and run
again — both lists end empty while the advancer still holds its read. -/
theorem c8_counterexample :
    ((run_async_queries (kill_query ((run_async_queries (register_query QueryState.initial
        ⟨1, true, (1, 0)⟩ true) false (2, 0)).1) 1) true (2, 0)).1.m_queries = []) ∧
    ((run_async_queries (kill_query ((run_async_queries (register_query QueryState.initial
        ⟨1, true, (1, 0)⟩ true) false (2, 0)).1) 1) true (2, 0)).1.m_new_queries = []) ∧
    ((run_async_queries (kill_query ((run_async_queries (register_query QueryState.initial
        ⟨1, true, (1, 0)⟩ true) false (2, 0)).1) 1) true (2, 0)).1.m_advancer_sg =
      some ⟨true, (1, 0)⟩) := by
  refine ⟨by rfl, by rfl, by rfl⟩

/-- Claim C8, witness: cleaning a coordinator whose only (dead) query pinned
the query snapshot removes the query and releases that snapshot's read. -/
theorem c8_witness :
    (clean_up_dead_queries ⟨none, [⟨1, false, (1, 0)⟩], [], some ⟨true, (1, 0)⟩, none⟩).1.m_queries.Perm
      (([⟨1, false, (1, 0)⟩] : List AQuery).filter fun q => q.alive) ∧
    (clean_up_dead_queries ⟨none, [⟨1, false, (1, 0)⟩], [], some ⟨true, (1, 0)⟩, none⟩).1.m_query_sg =
      some ⟨false, (1, 0)⟩ :=
  ⟨(c8_clean_up_dead_queries_spec ⟨none, [⟨1, false, (1, 0)⟩], [], some ⟨true, (1, 0)⟩, none⟩).1,
   (c8_clean_up_dead_queries_spec ⟨none, [⟨1, false, (1, 0)⟩], [], some ⟨true, (1, 0)⟩, none⟩).2.2.2.1
     ⟨true, (1, 0)⟩ (by decide) (by rfl) rfl⟩

/-- Claim C7: once `m_async_error` is set it survives every modelled
operation; `pin_version` returns immediately, leaving the whole state (in
particular the advancer snapshot) untouched; and `run_async_queries`
promotes every still-alive pending query into `m_queries`, empties
`m_new_queries`, and returns without opening or advancing any helper
snapshot and without constructing an observer. -/
theorem c7_async_error_sticky :
    ∀ (s : QueryState) (e : ℕ), s.m_async_error = some e →
      (∀ (v : ℕ × ℕ) (ok : Bool), pin_version s v ok = s) ∧
      (∀ (q : AQuery) (ok : Bool), (register_query s q ok).m_async_error = some e) ∧
      (∀ i : ℕ, (kill_query s i).m_async_error = some e) ∧
      ((clean_up_dead_queries s).1.m_async_error = some e) ∧
      (∀ (ok : Bool) (latest : ℕ × ℕ),
        (run_async_queries s ok latest).1.m_async_error = some e ∧
        (run_async_queries s ok latest).1.m_new_queries = [] ∧
        (∀ q : AQuery, q ∈ (run_async_queries s ok latest).1.m_queries ↔
          ((q ∈ s.m_queries ∨ q ∈ s.m_new_queries) ∧ q.alive = true)) ∧
        (run_async_queries s ok latest).2.observer_made = false ∧
        (run_async_queries s ok latest).2.advanced = false ∧
        (run_async_queries s ok latest).2.opened = false) := by
  intro s e he
  have hpin : ∀ (v : ℕ × ℕ) (ok : Bool), pin_version s v ok = s := by
    intro v ok
    simp [pin_version, he]
  refine ⟨hpin, ?_, fun i => by simp [kill_query, he], by simp [clean_up_error_eq, he], ?_⟩
  · intro q ok
    simp [register_query, hpin q.version ok, he]
  · intro ok latest
    have herr1 : (clean_up_dead_queries s).1.m_async_error = some e := by
      rw [clean_up_error_eq]; exact he
    by_cases hb : ((clean_up_dead_queries s).1.m_queries.isEmpty
        && (clean_up_dead_queries s).1.m_new_queries.isEmpty) = true
    · have hresult : run_async_queries s ok latest =
          ((clean_up_dead_queries s).1, ⟨false, false, false, (clean_up_dead_queries s).2⟩) := by
        simp only [run_async_queries]
        rw [if_pos hb]
      rw [Bool.and_eq_true, List.isEmpty_iff, List.isEmpty_iff] at hb
      refine ⟨by rw [hresult]; exact herr1, by rw [hresult]; exact hb.2, ?_, by rw [hresult],
        by rw [hresult], by rw [hresult]⟩
      intro q
      rw [hresult]
      show q ∈ (clean_up_dead_queries s).1.m_queries ↔ _
      rw [clean_up_mem_queries]
      constructor
      · rintro ⟨hq, ha⟩
        exact ⟨Or.inl hq, ha⟩
      · rintro ⟨hq | hq, ha⟩
        · exact ⟨hq, ha⟩
        · exact absurd (hb.2 ▸ (clean_up_mem_new_queries s q).mpr ⟨hq, ha⟩) (List.not_mem_nil q)
    · have hisNone : (clean_up_dead_queries s).1.m_async_error.isNone = false := by
        rw [herr1]; rfl
      have hisSome : (clean_up_dead_queries s).1.m_async_error.isSome = true := by
        rw [herr1]; rfl
      have hresult : run_async_queries s ok latest =
          (move_new_queries_to_main (clean_up_dead_queries s).1,
           ⟨false, false,
            (clean_up_dead_queries s).1.m_async_error.isNone
              && (((clean_up_dead_queries s).1.m_query_sg.isNone && ok)
                || ((clean_up_dead_queries s).1.m_query_sg.isSome
                  && (clean_up_dead_queries s).1.m_queries.isEmpty)),
            (clean_up_dead_queries s).2⟩) := by
        simp only [run_async_queries]
        rw [if_neg (by simp [hb]), hisNone]
        simp only [Bool.false_eq_true, if_false, hisSome, if_pos]
      refine ⟨?_, ?_, ?_, ?_, ?_, ?_⟩
      · rw [hresult]
        exact herr1
      · rw [hresult]
        rfl
      · intro q
        rw [hresult]
        show q ∈ (clean_up_dead_queries s).1.m_queries ++ (clean_up_dead_queries s).1.m_new_queries ↔ _
        rw [List.mem_append, clean_up_mem_queries, clean_up_mem_new_queries]
        constructor
        · rintro (⟨hq, ha⟩ | ⟨hq, ha⟩)
          · exact ⟨Or.inl hq, ha⟩
          · exact ⟨Or.inr hq, ha⟩
        · rintro ⟨hq | hq, ha⟩
          · exact Or.inl ⟨hq, ha⟩
          · exact Or.inr ⟨hq, ha⟩
      · rw [hresult]
      · rw [hresult]
      · rw [hresult]
        simp [hisNone]

/-- Claim C7, witness: a coordinator with a latched error, one live main
query and one dead pending query — pinning is a no-op and a run keeps the
error, empties the pending list and performs no snapshot work. -/
theorem c7_witness :
    pin_version ⟨some 7, [⟨1, true, (1, 0)⟩], [⟨2, false, (2, 0)⟩], none, some ⟨true, (1, 0)⟩⟩
      (3, 0) true =
      ⟨some 7, [⟨1, true, (1, 0)⟩], [⟨2, false, (2, 0)⟩], none, some ⟨true, (1, 0)⟩⟩ ∧
    (run_async_queries ⟨some 7, [⟨1, true, (1, 0)⟩], [⟨2, false, (2, 0)⟩], none,
      some ⟨true, (1, 0)⟩⟩ true (5, 0)).1.m_async_error = some 7 ∧
    (run_async_queries ⟨some 7, [⟨1, true, (1, 0)⟩], [⟨2, false, (2, 0)⟩], none,
      some ⟨true, (1, 0)⟩⟩ true (5, 0)).1.m_new_queries = [] ∧
    (run_async_queries ⟨some 7, [⟨1, true, (1, 0)⟩], [⟨2, false, (2, 0)⟩], none,
      some ⟨true, (1, 0)⟩⟩ true (5, 0)).2.observer_made = false :=
  ⟨(c7_async_error_sticky ⟨some 7, [⟨1, true, (1, 0)⟩], [⟨2, false, (2, 0)⟩], none,
      some ⟨true, (1, 0)⟩⟩ 7 rfl).1 (3, 0) true,
   ((c7_async_error_sticky ⟨some 7, [⟨1, true, (1, 0)⟩], [⟨2, false, (2, 0)⟩], none,
      some ⟨true, (1, 0)⟩⟩ 7 rfl).2.2.2.2 true (5, 0)).1,
   ((c7_async_error_sticky ⟨some 7, [⟨1, true, (1, 0)⟩], [⟨2, false, (2, 0)⟩], none,
      some ⟨true, (1, 0)⟩⟩ 7 rfl).2.2.2.2 true (5, 0)).2.1,
   ((c7_async_error_sticky ⟨some 7, [⟨1, true, (1, 0)⟩], [⟨2, false, (2, 0)⟩], none,
      some ⟨true, (1, 0)⟩⟩ 7 rfl).2.2.2.2 true (5, 0)).2.2.2.1⟩
